import Mathlib

/-!
Shallow embedding of the `lion` HTTP router (`router.go`) and proofs about it.

Handlers are modelled by the trace of observable events they emit when invoked
(`Handler := List String`); a middleware is a handler transformer, exactly as in
the source where `Middleware.Next : http.Handler -> http.Handler`.  Mutable
registration state (the shared host/path matcher route store) is threaded
explicitly.  Go pointer identity of `*route` values is modelled by a numeric
route id.  Parts of the repository that are not in `router.go`
(`middleware.go`, `route.go`, `context.go`, the matcher internals) are modelled
from the specification and marked as such in their doc comments.
-/

namespace Lion

/-- Handlers are modelled by the event trace they produce when invoked. -/
abbrev Handler := List String

/-- Middleware transforms a handler into a handler (`Middleware.Next`). -/
abbrev Middleware := Handler → Handler

/-- Middlewares is an ordered list of middleware, as in `middleware.go`. -/
abbrev Middlewares := List Middleware

/-- Modelled from the spec: `Middlewares.BuildHandler` (`middleware.go`, absent
from the provided sources) composes the list around a terminal handler so that
the first-registered middleware is the outermost wrapper. -/
def Middlewares.BuildHandler (mws : Middlewares) (handler : Handler) : Handler :=
  mws.foldr (fun m h => m h) handler

/-- Pattern resolution performed by `Router.Handle` (router.go lines 105-110):
`pattern == "/"` on a non-empty router pattern is a no-op, otherwise the two
strings are concatenated. -/
def resolvePattern (rpat pat : String) : String :=
  if pat = "/" ∧ rpat ≠ "" then rpat else rpat ++ pat

/-- Pattern resolution performed by `Router.Group` (router.go lines 92-95):
`pattern == "/"` is a no-op only when the router pattern is neither `"/"` nor
empty. -/
def groupPattern (rpat pat : String) : String :=
  if pat = "/" ∧ rpat ≠ "/" ∧ rpat ≠ "" then rpat else rpat ++ pat

/-- Pattern computed at the top of `Router.Mount` (router.go lines 153-158):
`pattern == "/"` keeps the router pattern, otherwise concatenation. -/
def mountPattern (rpat pat : String) : String :=
  if pat = "/" then rpat else rpat ++ pat

/-- Route (`route.go`, absent from the provided sources; fields as used by
`router.go`): identity (Go pointer identity, modelled as a numeric id), the
stored pattern and host, and the method-to-built-handler mapping. -/
structure route where
  id : Nat
  pattern : String
  host : String
  methods : List (String × Handler)
deriving DecidableEq

/-- Router node state used by registration: pattern, host, own middleware
list, and the ids of the routes directly owned by this node (`r.routes`). -/
structure Router where
  pattern : String
  host : String
  middlewares : Middlewares
  routes : List Nat

/-- Shared registration state of the root host/path matcher: the stored routes
(keyed by host and pattern) and a counter providing fresh route identities. -/
structure RegState where
  matcherRoutes : List route
  nextId : Nat

/-- Empty matcher state of a freshly created root router. -/
def emptyState : RegState := ⟨[], 0⟩

/-- Overwrite-in-place update of a method-to-handler mapping: an existing
binding for the method is replaced, otherwise the binding is appended. -/
def setMethod : List (String × Handler) → String → Handler → List (String × Handler)
  | [], m, b => [(m, b)]
  | (n, h) :: rest, m, b =>
      if n = m then (m, b) :: rest else (n, h) :: setMethod rest m b

/-- Lookup of the handler bound to a method in a route's mapping. -/
def getM : List (String × Handler) → String → Option Handler
  | [], _ => none
  | (n, h) :: rest, m => if n = m then some h else getM rest m

/-- Matcher key comparison: a stored route is hit when both its host and its
pattern agree with the registration request. -/
def keyMatch (rt : route) (host pat : String) : Bool :=
  decide (rt.host = host ∧ rt.pattern = pat)

/-- Modelled from the spec: the path matcher `Register` (tree internals absent
from the provided sources).  Per spec section 4.2, if a Route already exists
for this (host, pattern) key the new method is bound on it in place and the
same Route is returned; otherwise a fresh Route is created and stored.  The
result is the updated store, the id of the route, and whether it was newly
created. -/
def rmInsert : List route → String → String → String → Handler → Nat →
    List route × Nat × Bool
  | [], host, pat, m, b, fresh =>
      ([{ id := fresh, pattern := pat, host := host, methods := [(m, b)] }], fresh, true)
  | rt :: rest, host, pat, m, b, fresh =>
      if keyMatch rt host pat then
        ({ rt with methods := setMethod rt.methods m b } :: rest, rt.id, false)
      else
        let out := rmInsert rest host pat m b fresh
        (rt :: out.1, out.2.1, out.2.2)

/-- Registration into the shared matcher state: delegates to `rmInsert` and
advances the fresh-id counter when a route was created. -/
def rmRegister (st : RegState) (host method pat : String) (b : Handler) :
    RegState × Nat :=
  let out := rmInsert st.matcherRoutes host pat method b st.nextId
  (⟨out.1, if out.2.2 then st.nextId + 1 else st.nextId⟩, out.2.1)

/-- Ancestor-wrapped middleware chain of `Router.buildMiddlewares` (router.go
lines 417-423): the node's own middleware is applied to the handler first
(innermost), then each ancestor's, up to the root.  A router is represented by
the list of middleware lists along its ancestor chain, the node itself first
and the root last. -/
def buildMiddlewares : List Middlewares → Handler → Handler
  | [], h => h
  | own :: ancestors, h => buildMiddlewares ancestors (own.BuildHandler h)

/-- Result of `Router.Handle`: the updated matcher state, the updated router
node, and the identity of the returned route. -/
structure HandleOut where
  st : RegState
  r : Router
  rid : Nat

/-- Router.Handle (router.go lines 104-125): resolve the pattern, build the
full ancestor-wrapped chain, register into the shared matcher under the node's
current host, and append the route to the node's own list unless `findRoute`
(pointer comparison, lines 407-415) already finds it there. -/
def Handle (st : RegState) (r : Router) (anc : List Middlewares)
    (method pat : String) (handler : Handler) : HandleOut :=
  let p := resolvePattern r.pattern pat
  let built := buildMiddlewares (r.middlewares :: anc) handler
  let reg := rmRegister st r.host method p built
  let r' := if reg.2 ∈ r.routes then r else { r with routes := r.routes ++ [reg.2] }
  ⟨reg.1, r', reg.2⟩

/-- Lookup of a stored route by its identity (Go pointer). -/
def findById (rs : List route) (rid : Nat) : Option route :=
  rs.find? (fun rt => decide (rt.id = rid))

/-- Lookup of a stored route by its (host, pattern) matcher key. -/
def findByKey (rs : List route) (host pat : String) : Option route :=
  rs.find? (fun rt => keyMatch rt host pat)

/-- HTTP methods accepted by `Any` and `ANY` (router.go line 26). -/
def allowedHTTPMethods : List String :=
  ["GET", "HEAD", "POST", "PUT", "DELETE", "TRACE", "OPTIONS", "CONNECT", "PATCH"]

/-- Modelled from the spec: `route.withMethods` (`route.go`, absent from the
provided sources) binds the given handler to each listed method on the route,
mutating the shared route object in the matcher store. -/
def withMethods (st : RegState) (rid : Nat) (h : Handler) (methods : List String) :
    RegState :=
  { st with
    matcherRoutes := st.matcherRoutes.map (fun rt =>
      if rt.id = rid then
        { rt with methods := methods.foldl (fun ms m => setMethod ms m h) rt.methods }
      else rt) }

/-- Router.Any (router.go lines 201-205): register the first allowed method
through `Handle` (full ancestor-wrapped chain), then bind the remaining
methods to `r.middlewares.BuildHandler(handler)` — only the calling node's own
middleware — via `withMethods`. -/
def Any (st : RegState) (r : Router) (anc : List Middlewares)
    (pat : String) (handler : Handler) : RegState × Router × Nat :=
  let out := Handle st r anc (allowedHTTPMethods.headD "") pat handler
  let st' := withMethods out.st out.rid
      (Middlewares.BuildHandler r.middlewares handler) allowedHTTPMethods.tail
  (st', out.r, out.rid)

/-- Modelled from the spec: `wrap` turns a contextual handler into a plain
handler (`handler.go`, absent from the provided sources); on the trace model
it preserves the invocation trace. -/
def wrap (handler : Handler) : Handler := handler

/-- Router.ANY (router.go lines 253-257): identical to `Any` except the
contextual handler is adapted through `wrap` first. -/
def RouterANY (st : RegState) (r : Router) (anc : List Middlewares)
    (pat : String) (handler : Handler) : RegState × Router × Nat :=
  let out := Handle st r anc (allowedHTTPMethods.headD "") pat (wrap handler)
  let st' := withMethods out.st out.rid
      (Middlewares.BuildHandler r.middlewares (wrap handler)) allowedHTTPMethods.tail
  (st', out.r, out.rid)

/-- Router tree: a node together with its subrouters (`r.subrouters`). -/
inductive RTree where
  | mk (node : Router) (subs : List RTree)

/-- Node of a router tree. -/
def RTree.node : RTree → Router
  | .mk n _ => n

/-- Subrouters of a router tree. -/
def RTree.subs : RTree → List RTree
  | .mk _ s => s

mutual

/-- Router.Routes (router.go lines 563-574): the node's directly owned routes
followed by the recursive union of all subrouters' route sets. -/
def RTree.Routes : RTree → List Nat
  | .mk node subs => node.routes ++ RTree.routesOf subs

/-- Concatenated route sets of a list of subrouters. -/
def RTree.routesOf : List RTree → List Nat
  | [] => []
  | t :: ts => RTree.Routes t ++ RTree.routesOf ts

end

/-- Router.Host (router.go lines 194-198) sets the node's host (the matcher
side effect of registering the host pattern creates an empty per-host scope
and does not affect the flat keyed store of this model). -/
def Host (r : Router) (h : String) : Router := { r with host := h }

/-- Re-registration of one imported route's methods inside `Mount`: for each
method of the imported route, `r.Handle(method, route.Pattern(), route.Handler(method))`. -/
def handleMethods (anc : List Middlewares) (pat : String) :
    RegState → Router → List (String × Handler) → RegState × Router
  | st, r, [] => (st, r)
  | st, r, (m, h) :: rest =>
      let out := Handle st r anc m pat h
      handleMethods anc pat out.st out.r rest

/-- Loop body of `Mount` (router.go lines 161-166): for each route directly
owned by the subrouter, set the host to the route's stored host and re-handle
each of its methods under the route's stored pattern.  Route data is read from
the subrouter's own matcher store `subSt`. -/
def mountRoutes (anc : List Middlewares) (subSt : RegState) :
    RegState → Router → List Nat → RegState × Router
  | st, r, [] => (st, r)
  | st, r, rid :: rest =>
      match findById subSt.matcherRoutes rid with
      | none => mountRoutes anc subSt st r rest
      | some rt =>
          let r1 := Host r rt.host
          let out := handleMethods anc rt.pattern st r1 rt.methods
          mountRoutes anc subSt out.1 out.2 rest

/-- Router.Mount (router.go lines 149-170): save the node's pattern and host,
extend the pattern with the mount argument, iterate over the routes directly
owned by the subrouter node (`sub.routes`), and restore pattern and host at
the end. -/
def Mount (st : RegState) (r : Router) (anc : List Middlewares)
    (pat : String) (subSt : RegState) (sub : RTree) : RegState × Router :=
  let oldp := r.pattern
  let oldh := r.host
  let r1 := { r with pattern := mountPattern r.pattern pat }
  let out := mountRoutes anc subSt st r1 sub.node.routes
  (out.1, { out.2 with pattern := oldp, host := oldh })

/-- Per-request context (`context.go`, absent from the provided sources):
parameter bindings and a flag modelling the attached request/response
references. -/
structure Ctx where
  params : List (String × String)
  hasReq : Bool
deriving DecidableEq

/-- Modelled from the spec: `newContext` (`context.go`) constructs a fresh
context with no parameters and no attached request. -/
def newContext : Ctx := ⟨[], false⟩

/-- Modelled from the spec: `ctx.Reset` (`context.go`) clears prior parameter
bindings and detaches stale request/response references. -/
def Ctx.Reset (_ : Ctx) : Ctx := ⟨[], false⟩

/-- Pool acquisition (`sync.Pool.Get` with the `New` of `newCtxPool`,
router.go lines 172-178): take a pooled context if one is available, otherwise
construct a fresh one. -/
def poolGet : List Ctx → Ctx × List Ctx
  | [] => (newContext, [])
  | c :: rest => (c, rest)

/-- Behaviour of the invoked handler chain: it either returns normally or it
panics, unwinding past the dispatcher to a recovery boundary above it. -/
inductive HandlerBehavior where
  | ret
  | panics
deriving DecidableEq

/-- Observable outcome of one dispatch: the parameters visible to the handler
through the context at invocation time (`none` on the not-found path), whether
the handler chain panicked, and the state of the context pool once control has
left `ServeHTTP` (after unwinding, in the panic case). -/
structure DispatchResult where
  observed : Option (List (String × String))
  panicked : Bool
  poolAfter : List Ctx
deriving DecidableEq

/-- Router.ServeHTTP (router.go lines 129-146): acquire a context from the
pool, `Reset` it, attach the request, match; on a match populate the context
with the extracted parameters and invoke the handler chain, otherwise run the
not-found handler; finally `pool.Put(ctx)`.  The `Put` is a plain statement,
not deferred, so a panic in the handler chain skips it: the unwound pool state
is the pool without the acquired context, even when a recovery boundary above
the dispatcher recovers the panic. -/
def serveHTTP (pool : List Ctx)
    (m : Option (List (String × String) × HandlerBehavior)) : DispatchResult :=
  let acq := poolGet pool
  let c1 := acq.1.Reset
  let c2 := { c1 with hasReq := true }
  match m with
  | some (ps, hb) =>
      let c3 := { c2 with params := ps }
      match hb with
      | .ret => ⟨some c3.params, false, acq.2 ++ [c3]⟩
      | .panics => ⟨some c3.params, true, acq.2⟩
  | none => ⟨none, false, acq.2 ++ [c2]⟩

/-- Named-middleware table of a router node (`r.namedMiddlewares`). -/
abbrev NamedTable := List (String × Middlewares)

/-- Router.hasNamed (router.go lines 541-544): key existence in the node's
named-middleware table. -/
def hasNamed (t : NamedTable) (name : String) : Bool :=
  t.any (fun p => p.1 == name)

/-- Lookup of the middleware list bound to a name in a node's table. -/
def lookupNamed : NamedTable → String → Middlewares
  | [], _ => []
  | (n, ms) :: rest, name => if n = name then ms else lookupNamed rest name

/-- Router.Define (router.go lines 518-520): append the middlewares to the
list bound to the name in the node's table (Go map append-assignment). -/
def Define : NamedTable → String → Middlewares → NamedTable
  | [], name, mws => [(name, mws)]
  | (n, ms) :: rest, name, mws =>
      if n = name then (n, ms ++ mws) :: rest else (n, ms) :: Define rest name mws

/-- Router.UseNamed (router.go lines 531-539) along an ancestor chain (the
node itself first, the root last): use the middlewares from the first table
defining the name, otherwise recurse into the parent; at the root, panic —
modelled as `none`. -/
def UseNamedResolve : List NamedTable → String → Option Middlewares
  | [], _ => none
  | t :: ancestors, name =>
      if hasNamed t name then some (lookupNamed t name)
      else UseNamedResolve ancestors name

/-- Duplicate-slash collapsing on character lists. -/
def collapseSlashes : List Char → List Char
  | [] => []
  | [c] => [c]
  | a :: b :: rest =>
      if a = '/' ∧ b = '/' then collapseSlashes (b :: rest)
      else a :: collapseSlashes (b :: rest)

/-- Modelled from the spec: filesystem-style path joining of two path strings,
collapsing duplicate slashes (the rule the spec ascribes to `Mount`). -/
def specPathJoin (a b : String) : String :=
  ⟨collapseSlashes (a.data ++ '/' :: b.data)⟩

/-- Tracing middleware used to observe invocation order: it emits a labelled
before-event, runs the wrapped handler, then emits a labelled after-event. -/
def wrapL (l : String) : Middleware :=
  fun h => (l ++ ":before") :: h ++ [l ++ ":after"]

theorem buildMiddlewares_append (xs ys : List Middlewares) (h : Handler) :
    buildMiddlewares (xs ++ ys) h = buildMiddlewares ys (buildMiddlewares xs h) := by
  induction xs generalizing h with
  | nil => simp [buildMiddlewares]
  | cons x xs ih => simp [buildMiddlewares, ih]

theorem buildMiddlewares_replicate_nil (n : Nat) (h : Handler) :
    buildMiddlewares (List.replicate n ([] : Middlewares)) h = h := by
  induction n with
  | zero => rfl
  | succ k ih => simpa [List.replicate, buildMiddlewares, Middlewares.BuildHandler] using ih

/-- C3: for a route registered on a node whose own middleware is labelled `b`,
with an ancestor at any depth whose middleware is labelled `a` (all other
ancestors having empty middleware lists), the chain built by
`buildMiddlewares` invokes a-before, b-before, the handler, b-after, a-after:
the node's middleware is innermost and every ancestor's wraps outside it,
regardless of where along the chain the ancestor sits. -/
theorem buildMiddlewares_ancestor_outside (a b evt : String) (n k : Nat) :
    buildMiddlewares
      ([wrapL b] ::
        (List.replicate n ([] : Middlewares) ++ [wrapL a] :: List.replicate k ([] : Middlewares)))
      [evt]
    = [a ++ ":before", b ++ ":before", evt, b ++ ":after", a ++ ":after"] := by
  show buildMiddlewares
      (List.replicate n ([] : Middlewares) ++ [wrapL a] :: List.replicate k ([] : Middlewares))
      (Middlewares.BuildHandler [wrapL b] [evt]) = _
  rw [buildMiddlewares_append, buildMiddlewares_replicate_nil]
  show buildMiddlewares (List.replicate k ([] : Middlewares))
      (Middlewares.BuildHandler [wrapL a] (Middlewares.BuildHandler [wrapL b] [evt])) = _
  rw [buildMiddlewares_replicate_nil]
  simp [Middlewares.BuildHandler, wrapL]

/-- C4 counterexample: at router pattern `"/"` with argument `"/"`, Handle
yields `"/"` (its no-op condition only requires a non-empty pattern) while
Group yields `"//"`; the two registration rules disagree, contradicting the
claim that Handle resolves patterns by the same rule as Group. -/
theorem resolvePattern_group_differ_at_root :
    resolvePattern "/" "/" = "/" ∧ groupPattern "/" "/" = "//" ∧
    resolvePattern "/" "/" ≠ groupPattern "/" "/" := by
  refine ⟨by decide, by decide, by decide⟩

/-- C4 (amended): Handle's resolution rule agrees with Group's whenever the
router pattern differs from `"/"`; Handle treats the argument `"/"` as a no-op
on every non-empty router pattern, including the root pattern `"/"` where
Group instead concatenates. -/
theorem resolvePattern_eq_groupPattern (p q : String) (h : p ≠ "/") :
    resolvePattern p q = groupPattern p q := by
  unfold resolvePattern groupPattern
  by_cases hq : q = "/"
  · by_cases hp : p = ""
    · simp [hq, hp]
    · simp [hq, hp, h]
  · simp [hq]

/-- Witness for the amended C4 theorem at the pattern pair ("/a", "/"). -/
theorem resolvePattern_eq_groupPattern_witness :
    ("/a" : String) ≠ "/" ∧ resolvePattern "/a" "/" = groupPattern "/a" "/" :=
  ⟨by decide, resolvePattern_eq_groupPattern "/a" "/" (by decide)⟩

/-- C9: Mount restores the mounting router's pattern and host fields: after
the call they are equal to their values before it, undoing the temporary
pattern extension and the host changes performed while importing. -/
theorem mount_restores_pattern_and_host (st : RegState) (r : Router)
    (anc : List Middlewares) (pat : String) (subSt : RegState) (sub : RTree) :
    (Mount st r anc pat subSt sub).2.pattern = r.pattern ∧
    (Mount st r anc pat subSt sub).2.host = r.host :=
  ⟨rfl, rfl⟩

/-- C5: along an ancestor chain of named-middleware tables (the node itself
first, the root last), UseNamed panics (modelled as `none`) exactly when no
table on the chain defines the name; and resolution at a node first consults
that node's own table, only then delegating to the ancestors one level at a
time. -/
theorem useNamed_panics_iff_undefined (chain : List NamedTable) (name : String) :
    (UseNamedResolve chain name = none ↔ ∀ t ∈ chain, hasNamed t name = false) ∧
    (∀ (t : NamedTable) (rest : List NamedTable),
      UseNamedResolve (t :: rest) name =
        if hasNamed t name then some (lookupNamed t name)
        else UseNamedResolve rest name) := by
  constructor
  · induction chain with
    | nil => simp [UseNamedResolve]
    | cons t rest ih =>
        by_cases h : hasNamed t name
        · simp [UseNamedResolve, h]
        · simp [UseNamedResolve, h, ih]
  · intro t rest
    rfl

/-- Witness for the C5 theorem: a name defined nowhere on a concrete two-level
chain makes UseNamed panic. -/
theorem useNamed_panics_iff_undefined_witness :
    UseNamedResolve [[("auth", ([] : Middlewares))], []] "log" = none :=
  (useNamed_panics_iff_undefined [[("auth", ([] : Middlewares))], []] "log").1.mpr
    (by
      intro t ht
      rcases List.mem_pair.mp ht with h | h <;> subst h <;> rfl)

/-- C7: a dispatch that matches observes exactly the parameters extracted for
the current request, whatever parameter bindings the pooled context carried
from a prior request, because ServeHTTP resets the acquired context before
use; Reset clears the parameters and detaches the stale request reference. -/
theorem serveHTTP_resets_pooled_context (c : Ctx) (pool : List Ctx)
    (ps : List (String × String)) (hb : HandlerBehavior) :
    (serveHTTP (c :: pool) (some (ps, hb))).observed = some ps ∧
    (Ctx.Reset c).params = [] ∧ (Ctx.Reset c).hasReq = false := by
  cases hb <;> exact ⟨rfl, rfl, rfl⟩

/-- C1 counterexample: a dispatch whose handler chain panics leaves the pool
empty even though a context was acquired from it — `pool.Put` is not
deferred, so the context is not returned on the panic exit path even when a
recovery boundary above the dispatcher recovers the panic. -/
theorem serveHTTP_panic_skips_release :
    (serveHTTP [newContext] (some ([("k", "v")], HandlerBehavior.panics))).poolAfter = [] ∧
    (serveHTTP [newContext] (some ([("k", "v")], HandlerBehavior.panics))).panicked = true := by
  exact ⟨rfl, rfl⟩

/-- C1 (amended): on every non-panicking exit path (successful dispatch and
not-found fallback alike) ServeHTTP returns the acquired context to the pool:
the pool afterwards holds every context it held before, plus a fresh one when
it was empty at acquisition. -/
theorem serveHTTP_releases_unless_panic (pool : List Ctx)
    (m : Option (List (String × String) × HandlerBehavior))
    (h : (serveHTTP pool m).panicked = false) :
    (serveHTTP pool m).poolAfter.length = max 1 pool.length := by
  rcases pool with _ | ⟨c, rest⟩
  · rcases m with _ | ⟨ps, hb⟩
    · simp [serveHTTP, poolGet]
    · cases hb
      · simp [serveHTTP, poolGet]
      · simp [serveHTTP, poolGet] at h
  · rcases m with _ | ⟨ps, hb⟩
    · simp [serveHTTP, poolGet]
    · cases hb
      · simp [serveHTTP, poolGet]
      · simp [serveHTTP, poolGet] at h

/-- Witness for the amended C1 theorem: a not-found dispatch from a singleton
pool is non-panicking and returns the context. -/
theorem serveHTTP_releases_unless_panic_witness :
    (serveHTTP [newContext] none).panicked = false ∧
    (serveHTTP [newContext] none).poolAfter.length = max 1 [newContext].length :=
  ⟨rfl, serveHTTP_releases_unless_panic [newContext] none rfl⟩

/-- C2 counterexample: a subrouter tree whose root node owns no route but
whose child subrouter owns one (route id 0, visible in `RTree.Routes`): Mount
imports nothing — the mounting router's matcher stays empty and its route
list stays empty — although the route is registered under the subrouter in
the sense of `Router.Routes`.  This contradicts the claim that Mount imports,
transitively, the routes owned by the subrouter's own subrouters. -/
theorem mount_skips_nested_routes :
    (Mount emptyState ⟨"", "", [], []⟩ [] "/api"
        ⟨[⟨0, "/ping", "", [("GET", ["H"])]⟩], 1⟩
        (RTree.mk ⟨"", "", [], []⟩ [RTree.mk ⟨"", "", [], [0]⟩ []])).1.matcherRoutes = [] ∧
    (Mount emptyState ⟨"", "", [], []⟩ [] "/api"
        ⟨[⟨0, "/ping", "", [("GET", ["H"])]⟩], 1⟩
        (RTree.mk ⟨"", "", [], []⟩ [RTree.mk ⟨"", "", [], [0]⟩ []])).2.routes = [] ∧
    RTree.Routes (RTree.mk ⟨"", "", [], []⟩ [RTree.mk ⟨"", "", [], [0]⟩ []]) = [0] := by
  refine ⟨rfl, rfl, rfl⟩

/-- C2 (amended): Mount is eager and shallow — it reads only the route list
directly owned by the subrouter node at call time: the result never depends
on the subrouter's own subrouters, and a route directly owned by the
subrouter is imported into the mounting router. -/
theorem mount_imports_only_direct_routes :
    (∀ (st : RegState) (r : Router) (anc : List Middlewares) (pat : String)
        (subSt : RegState) (node : Router) (subs subs' : List RTree),
      Mount st r anc pat subSt (RTree.mk node subs) =
        Mount st r anc pat subSt (RTree.mk node subs')) ∧
    (Mount emptyState ⟨"", "", [], []⟩ [] "/v1"
        ⟨[⟨0, "/ping", "", [("GET", ["H"])]⟩], 1⟩
        (RTree.mk ⟨"", "", [], [0]⟩ [])).2.routes = [0] := by
  exact ⟨fun st r anc pat subSt node subs subs' => rfl, rfl⟩

/-- C8 counterexample: mounting at `"/api/"` a subrouter owning the route
`"/ping"` stores the effective pattern `"/api//ping"` — the plain string
concatenation — while filesystem-style joining with duplicate-slash collapse
would give `"/api/ping"`; Mount does not collapse duplicate slashes. -/
theorem mount_does_not_collapse_slashes :
    ((Mount emptyState ⟨"", "", [], []⟩ [] "/api/"
        ⟨[⟨0, "/ping", "", [("GET", ["H"])]⟩], 1⟩
        (RTree.mk ⟨"", "", [], [0]⟩ [])).1.matcherRoutes.map (fun rt => rt.pattern))
      = ["/api//ping"] ∧
    specPathJoin "/api/" "/ping" = "/api/ping" ∧
    ("/api//ping" : String) ≠ "/api/ping" := by
  refine ⟨rfl, by decide, by decide⟩

/-- C8 (amended): Mount joins the mounting router's pattern, the mount
argument and each imported route's stored pattern by literal string
concatenation (with the `"/"` no-op rules of Mount and Handle), re-registering
under the imported route's stored host: mounting `"/api"` over a route
`"/ping"` registered for host `"api.com"` yields the effective route
`("/api/ping", "api.com")`, while mounting at `"/api/"` yields `"/api//ping"`
without collapsing the duplicate slash. -/
theorem mount_joins_by_concatenation :
    ((Mount emptyState ⟨"", "", [], []⟩ [] "/api"
        ⟨[⟨0, "/ping", "api.com", [("GET", ["H"])]⟩], 1⟩
        (RTree.mk ⟨"", "api.com", [], [0]⟩ [])).1.matcherRoutes.map
          (fun rt => (rt.pattern, rt.host)))
      = [("/api/ping", "api.com")] ∧
    ((Mount emptyState ⟨"", "", [], []⟩ [] "/api/"
        ⟨[⟨0, "/ping", "", [("GET", ["H"])]⟩], 1⟩
        (RTree.mk ⟨"", "", [], [0]⟩ [])).1.matcherRoutes.map (fun rt => rt.pattern))
      = ["/api//ping"] := by
  refine ⟨rfl, rfl⟩

theorem getM_setMethod_self (ms : List (String × Handler)) (m : String) (b : Handler) :
    getM (setMethod ms m b) m = some b := by
  induction ms with
  | nil => simp [setMethod, getM]
  | cons p rest ih =>
      obtain ⟨n, h⟩ := p
      by_cases hn : n = m
      · simp [setMethod, hn, getM]
      · simp [setMethod, hn, getM, ih]

theorem rmInsert_twice (rs : List route) (host pat m1 m2 : String)
    (b1 b2 : Handler) (f1 f2 : Nat) :
    (rmInsert (rmInsert rs host pat m1 b1 f1).1 host pat m2 b2 f2).2.1
        = (rmInsert rs host pat m1 b1 f1).2.1 ∧
    (rmInsert (rmInsert rs host pat m1 b1 f1).1 host pat m2 b2 f2).2.2 = false ∧
    (rmInsert (rmInsert rs host pat m1 b1 f1).1 host pat m2 b2 f2).1.length
        = (rmInsert rs host pat m1 b1 f1).1.length ∧
    ((findByKey (rmInsert (rmInsert rs host pat m1 b1 f1).1 host pat m2 b2 f2).1 host pat).map
        (fun rt => getM rt.methods m2)) = some (some b2) := by
  induction rs with
  | nil =>
      simp [rmInsert, keyMatch, findByKey, List.find?, getM_setMethod_self]
  | cons rt rest ih =>
      by_cases hk : (rt.host = host ∧ rt.pattern = pat)
      · simp [rmInsert, keyMatch, hk, findByKey, List.find?, getM_setMethod_self]
      · simp [rmInsert, keyMatch, hk, findByKey, List.find?] at ih ⊢
        exact ih

/-- C6: registering under the same (host, method, pattern) twice — and more
generally registering any second method against the same (host, pattern) —
returns the same route identity, leaves the router's route list unchanged,
creates no second entry in the matcher store, and overwrites the
method-to-handler binding in place with the newly built chain. -/
theorem handle_same_pattern_idempotent
    (st : RegState) (r : Router) (anc : List Middlewares)
    (m1 m2 pat : String) (h1 h2 : Handler) :
    (Handle (Handle st r anc m1 pat h1).st (Handle st r anc m1 pat h1).r anc m2 pat h2).rid
        = (Handle st r anc m1 pat h1).rid ∧
    (Handle (Handle st r anc m1 pat h1).st (Handle st r anc m1 pat h1).r anc m2 pat h2).r.routes
        = (Handle st r anc m1 pat h1).r.routes ∧
    (Handle (Handle st r anc m1 pat h1).st
        (Handle st r anc m1 pat h1).r anc m2 pat h2).st.matcherRoutes.length
        = (Handle st r anc m1 pat h1).st.matcherRoutes.length ∧
    ((findByKey (Handle (Handle st r anc m1 pat h1).st
          (Handle st r anc m1 pat h1).r anc m2 pat h2).st.matcherRoutes
        r.host (resolvePattern r.pattern pat)).map (fun rt => getM rt.methods m2))
      = some (some (buildMiddlewares (r.middlewares :: anc) h2)) := by
  obtain ⟨e1, e2, e3, e4⟩ := rmInsert_twice st.matcherRoutes r.host
    (resolvePattern r.pattern pat) m1 m2
    (buildMiddlewares (r.middlewares :: anc) h1)
    (buildMiddlewares (r.middlewares :: anc) h2)
    st.nextId
    (Handle st r anc m1 pat h1).st.nextId
  by_cases hc : (rmInsert st.matcherRoutes r.host (resolvePattern r.pattern pat) m1
      (buildMiddlewares (r.middlewares :: anc) h1) st.nextId).2.1 ∈ r.routes
  · simp [Handle, rmRegister, hc] at e1 e2 e3 e4 ⊢
    simp [e1, e2, e3, e4, hc]
  · simp [Handle, rmRegister, hc] at e1 e2 e3 e4 ⊢
    simp [e1, e2, e3, e4, hc, List.mem_append]

/-- C10: starting from an empty matcher, `Any` registers the first allowed
method (GET) with the full ancestor-wrapped chain built by
`buildMiddlewares`, but binds each of the remaining eight allowed methods to
the handler wrapped only in the calling node's own middleware list, without
the ancestors' middleware; `ANY` behaves identically on the adapted handler. -/
theorem any_wraps_ancestors_only_for_first_method
    (r : Router) (anc : List Middlewares) (pat : String) (h : Handler) :
    ((findById (Any emptyState r anc pat h).1.matcherRoutes
        (Any emptyState r anc pat h).2.2).map (fun rt => getM rt.methods "GET")
      = some (some (buildMiddlewares (r.middlewares :: anc) h))) ∧
    (∀ m ∈ allowedHTTPMethods.tail,
      (findById (Any emptyState r anc pat h).1.matcherRoutes
          (Any emptyState r anc pat h).2.2).map (fun rt => getM rt.methods m)
        = some (some (Middlewares.BuildHandler r.middlewares h))) ∧
    ((findById (RouterANY emptyState r anc pat h).1.matcherRoutes
        (RouterANY emptyState r anc pat h).2.2).map (fun rt => getM rt.methods "GET")
      = some (some (buildMiddlewares (r.middlewares :: anc) (wrap h)))) ∧
    (∀ m ∈ allowedHTTPMethods.tail,
      (findById (RouterANY emptyState r anc pat h).1.matcherRoutes
          (RouterANY emptyState r anc pat h).2.2).map (fun rt => getM rt.methods m)
        = some (some (Middlewares.BuildHandler r.middlewares (wrap h)))) := by
  refine ⟨?_, ?_, ?_, ?_⟩
  · simp [Any, Handle, rmRegister, rmInsert, emptyState, withMethods, findById,
      allowedHTTPMethods, setMethod, getM]
  · intro m hm
    fin_cases hm <;>
      simp [Any, Handle, rmRegister, rmInsert, emptyState, withMethods, findById,
        allowedHTTPMethods, setMethod, getM]
  · simp [RouterANY, Handle, rmRegister, rmInsert, emptyState, withMethods, findById,
      allowedHTTPMethods, setMethod, getM]
  · intro m hm
    fin_cases hm <;>
      simp [RouterANY, Handle, rmRegister, rmInsert, emptyState, withMethods, findById,
        allowedHTTPMethods, setMethod, getM]

/-- Witness for the C10 theorem: registered through `Any` on a root-level
node with no ancestors and no own middleware, PATCH is bound to the bare
handler. -/
theorem any_wraps_ancestors_only_for_first_method_witness :
    ("PATCH" ∈ allowedHTTPMethods.tail) ∧
    ((findById (Any emptyState ⟨"", "", [], []⟩ [] "/x" ["H"]).1.matcherRoutes
        (Any emptyState ⟨"", "", [], []⟩ [] "/x" ["H"]).2.2).map
          (fun rt => getM rt.methods "PATCH")
      = some (some (Middlewares.BuildHandler ([] : Middlewares) ["H"]))) :=
  ⟨by decide,
   (any_wraps_ancestors_only_for_first_method ⟨"", "", [], []⟩ [] "/x" ["H"]).2.1
     "PATCH" (by decide)⟩

end Lion
